import Mathlib

/-!
Verification of the typed-extraction layer of the `sots-event-inspect` tool.

The development shallow-embeds the Rust source files `src/data.rs`,
`src/yaml.rs`, `src/interface.rs` and `src/main.rs`:

* the `Field` value tree (`yaml.rs`, enum `Field`) becomes an inductive type,
  with `BTreeMap<String, Field>` modelled as an association list consulted
  through `List.lookup` (the decoders only ever read maps);
* the `field_get!` family of typed accessors (`yaml.rs`) becomes one Lean
  function per expected variant, reproducing the exact error strings;
* the domain decoders (`Effect`, `Connector`, `Card`, `Deck`, `RawEvent`,
  `NPC` in `data.rs`) become `Except String` valued functions mirroring the
  source order of field accesses, validations and narrowing conversions;
* the cross-reference resolver (`interface.rs`, `App::build_npc_maps` and
  `App::parse_event_data`) becomes explicit state-passing folds, with
  `bimap::BiBTreeMap::insert`'s overwrite semantics spelled out.

Machine integers (`u64`, `u8`) are modelled as `Nat`; the only places where
the width matters are `u8::try_from` (checked narrowing, fails above 255)
and `as u8` (truncation, modelled as `% 256`), both made explicit.

The `impl_tryfrom_field!` macro invoked in `data.rs` is not part of the four
source files. Its wrapper shape is modelled from the spec's Typed Accessor
contract and from the parallel hand-expanded `TryFrom<&Field>` impls in
`src/main.rs`: match on the expected `Field` variant, run the body on the
payload, otherwise fail. All decoder bodies themselves are taken verbatim
from `data.rs`.
-/

namespace SEI

/-- Value tree from `yaml.rs`: enum `Field`. The `Float` payload (`f64`) is
dropped since no decoder ever reads it; only the variant tag matters. -/
inductive Field where
  | Struct : List (String × Field) → Field
  | List : List Field → Field
  | Bool : Bool → Field
  | Uint : Nat → Field
  | Int : Int → Field
  | Float : Field
  | Null : Field
  | Str : String → Field
deriving Repr

/-- Context prefix used by `field_get_body!` in `yaml.rs`: an enclosing event
id turns into the prefix `event NAME: ` on error messages. -/
def ctxLabel : Option String → String
  | some id => "event " ++ id ++ ": "
  | none => ""

/-- Typed accessor `field_get!(... let x: Str = map.key)` from `yaml.rs`. -/
def fieldGetStr (ctx : Option String) (m : List (String × Field)) (key : String) :
    Except String String :=
  match List.lookup key m with
  | none => .error (ctxLabel ctx ++ "Field didn't contain `" ++ key ++ "` key.")
  | some (.Str s) => .ok s
  | some _ => .error (ctxLabel ctx ++ "Field entry `" ++ key ++ "` is not of type Str.")

/-- Typed accessor `field_get!(... let x: Uint = map.key)` from `yaml.rs`. -/
def fieldGetUint (ctx : Option String) (m : List (String × Field)) (key : String) :
    Except String Nat :=
  match List.lookup key m with
  | none => .error (ctxLabel ctx ++ "Field didn't contain `" ++ key ++ "` key.")
  | some (.Uint n) => .ok n
  | some _ => .error (ctxLabel ctx ++ "Field entry `" ++ key ++ "` is not of type Uint.")

/-- Typed accessor `field_get!(... let x: Struct = map.key)` from `yaml.rs`. -/
def fieldGetStruct (ctx : Option String) (m : List (String × Field)) (key : String) :
    Except String (List (String × Field)) :=
  match List.lookup key m with
  | none => .error (ctxLabel ctx ++ "Field didn't contain `" ++ key ++ "` key.")
  | some (.Struct s) => .ok s
  | some _ => .error (ctxLabel ctx ++ "Field entry `" ++ key ++ "` is not of type Struct.")

/-- Typed accessor `field_get!(... let x: List = map.key)` from `yaml.rs`. -/
def fieldGetList (ctx : Option String) (m : List (String × Field)) (key : String) :
    Except String (List Field) :=
  match List.lookup key m with
  | none => .error (ctxLabel ctx ++ "Field didn't contain `" ++ key ++ "` key.")
  | some (.List l) => .ok l
  | some _ => .error (ctxLabel ctx ++ "Field entry `" ++ key ++ "` is not of type List.")

/-- Enum `Effect` from `data.rs`. -/
inductive Effect where
  | none | chain | inherit | duplicate | insert | collapse
  | redraw | viewHand | choose | listen
deriving DecidableEq, Repr

/-- Decoder body of `impl_tryfrom_field!(Uint for Effect)` in `data.rs`:
exact match against the nine known codes, everything else is `Effect.none`. -/
def effectOfUint (n : Nat) : Effect :=
  match n with
  | 1 => .chain
  | 2 => .inherit
  | 3 => .duplicate
  | 4 => .insert
  | 5 => .collapse
  | 6 => .redraw
  | 7 => .viewHand
  | 8 => .choose
  | 9 => .listen
  | _ => .none

/-- Modelled from the spec: the `impl_tryfrom_field!` macro wrapper (the macro
definition is not under `src/`); per the Typed Accessor contract and the
expanded impl in `main.rs` it fails iff the value is not a `Uint`. -/
def tryFromFieldEffect : Field → Except String Effect
  | .Uint n => .ok (effectOfUint n)
  | _ => .error "Field is not a Uint"

/-- Enum `ConnectType` from `data.rs`, in source declaration order
(Circle, Triangle, Square, Diamond, Dog, Spiral). -/
inductive ConnectType where
  | circle | triangle | square | diamond | dog | spiral
deriving DecidableEq, Repr, Fintype

/-- Rank of a `ConnectType` under the derived `Ord`: its declaration index. -/
def ConnectType.rank : ConnectType → Nat
  | .circle => 0
  | .triangle => 1
  | .square => 2
  | .diamond => 3
  | .dog => 4
  | .spiral => 5

/-- Bit value each tag is decoded from in `data.rs` (note Spiral is 0x10 and
Dog is 0x20, the opposite of their declaration order). -/
def connectBit : ConnectType → Nat
  | .circle => 0x1
  | .triangle => 0x2
  | .square => 0x4
  | .diamond => 0x8
  | .spiral => 0x10
  | .dog => 0x20

/-- A `BTreeSet<ConnectType>` is modelled as a strictly rank-sorted list;
this is ordered insertion (`BTreeSet::insert`). -/
def btreeInsertConnect (t : ConnectType) : List ConnectType → List ConnectType
  | [] => [t]
  | x :: xs =>
    if t.rank < x.rank then t :: x :: xs
    else if t.rank = x.rank then x :: xs
    else x :: btreeInsertConnect t xs

/-- Connector newtype from `data.rs`: a `BTreeSet<ConnectType>`. -/
abbrev Connector := List ConnectType

/-- Decoder body of `impl_tryfrom_field!(Uint for Connector)` in `data.rs`:
six independent bit tests, inserting in the source order Circle, Triangle,
Square, Diamond, Spiral, Dog. -/
def connectorOfUint (n : Nat) : Connector :=
  let s : List ConnectType := []
  let s := if n &&& 0x1 > 0 then btreeInsertConnect .circle s else s
  let s := if n &&& 0x2 > 0 then btreeInsertConnect .triangle s else s
  let s := if n &&& 0x4 > 0 then btreeInsertConnect .square s else s
  let s := if n &&& 0x8 > 0 then btreeInsertConnect .diamond s else s
  let s := if n &&& 0x10 > 0 then btreeInsertConnect .spiral s else s
  let s := if n &&& 0x20 > 0 then btreeInsertConnect .dog s else s
  s

/-- Modelled from the spec: wrapper of `impl_tryfrom_field!(Uint for
Connector)` (macro not under `src/`), failing iff the value is not `Uint`. -/
def tryFromFieldConnector : Field → Except String Connector
  | .Uint n => .ok (connectorOfUint n)
  | _ => .error "Field is not a Uint"

/-- Re-derived bitmask of a decoded Connector: OR of each present tag's bit
value (the spec's round-trip quantity). -/
def connectorMask (c : Connector) : Nat :=
  c.foldl (fun acc t => acc ||| connectBit t) 0

/-- Card struct from `data.rs`. -/
structure Card where
  input : Connector
  output : Connector
  effect : Effect
deriving DecidableEq, Repr

/-- Decoder body of `impl_tryfrom_field!(Struct for Card)` in `data.rs`:
plain `BTreeMap::get` lookups for `input`, `output`, `effect`, each decoded
by the corresponding `TryFrom`, in source order. -/
def tryFromStructCard (m : List (String × Field)) : Except String Card :=
  match List.lookup "input" m with
  | none => .error "No `input` field in card"
  | some inputF =>
  match tryFromFieldConnector inputF with
  | .error e => .error e
  | .ok input =>
  match List.lookup "output" m with
  | none => .error "No `output` field in card"
  | some outputF =>
  match tryFromFieldConnector outputF with
  | .error e => .error e
  | .ok output =>
  match List.lookup "effect" m with
  | none => .error "No `effect` field in card"
  | some effectF =>
  match tryFromFieldEffect effectF with
  | .error e => .error e
  | .ok effect => .ok ⟨input, output, effect⟩

/-- Modelled from the spec: wrapper of `impl_tryfrom_field!(Struct for Card)`
(macro not under `src/`), failing iff the value is not a `Struct`. -/
def tryFromFieldCard : Field → Except String Card
  | .Struct m => tryFromStructCard m
  | _ => .error "Field is not a Struct"

/-- Deck struct from `data.rs`. -/
structure Deck where
  anchor : Card
  cards : List Card
deriving DecidableEq, Repr

/-- The `for card in cards` loop of the Deck decoder: decode each list
element in order, aborting at the first failure. -/
def decodeCards : List Field → Except String (List Card)
  | [] => .ok []
  | f :: rest =>
    match tryFromFieldCard f with
    | .error e => .error e
    | .ok c =>
      match decodeCards rest with
      | .error e => .error e
      | .ok cs => .ok (c :: cs)

/-- Decoder body of `impl_tryfrom_field!(Struct for Deck)` in `data.rs`:
`field_get!(let cards: List = value.cards)`, decode every card, then the
mandatory `anchor` field. -/
def tryFromStructDeck (m : List (String × Field)) : Except String Deck :=
  match fieldGetList none m "cards" with
  | .error e => .error e
  | .ok cards =>
  match decodeCards cards with
  | .error e => .error e
  | .ok deck =>
  match List.lookup "anchor" m with
  | none => .error "No `anchor` field for Deck."
  | some anchorF =>
  match tryFromFieldCard anchorF with
  | .error e => .error e
  | .ok anchor => .ok ⟨anchor, deck⟩

/-- RawEvent struct from `data.rs`. The two `u8` counters are `Nat` values
known to be below 256 by the checked narrowing in the decoder. -/
structure RawEvent where
  id : String
  npc_guid : String
  sequence_count : Nat
  strike_count : Nat
  sequence_lengths : List Nat
  deck : Option Deck
deriving DecidableEq, Repr

/-- Derived `Ord` would compare all fields; `data.rs` instead implements
`Ord for RawEvent` by hand as `self.id.cmp(&other.id)`. -/
def cmpRawEvent (a b : RawEvent) : Ordering :=
  compare a.id b.id

/-- Iterator `step_by(8)`: element 0 of the auxiliary counter means "yield
this element and then skip 7". Structural so that it reduces by `rfl`. -/
def stepBy8Aux : Nat → List α → List α
  | _, [] => []
  | 0, x :: xs => x :: stepBy8Aux 7 xs
  | k + 1, _ :: xs => stepBy8Aux k xs

/-- Rust's `iter.step_by(8)`: keep elements at positions 0, 8, 16, ... -/
def stepBy8 (l : List α) : List α := stepBy8Aux 0 l

/-- Rust's `str::split("")`: an empty leading part, one part per character,
and an empty trailing part. Characters are represented as `List Char`
fragments so the empty parts are expressible. -/
def splitEmpty (s : List Char) : List (List Char) :=
  [] :: (s.map (fun c => [c]) ++ [[]])

/-- Result of `u8::from_str_radix(part, 10)` on a single-character part:
only an ASCII digit parses (a one-character string can hold no sign and
cannot overflow `u8`); the empty parts produced by `split("")` fail. -/
def digitOfChar (c : Char) : Option Nat :=
  if c.isDigit then some (c.toNat - 48) else none

/-- Parse one `split("")` part as `u8::from_str_radix(_, 10)` does. -/
def digitOfPart : List Char → Option Nat
  | [c] => digitOfChar c
  | _ => none

/-- Packed-sequence decoding from `data.rs` (and identically `main.rs`):
`sequence.split("").skip(2).step_by(8).flat_map(u8::from_str_radix(_, 10))`.
Rust's `flat_map` over a `Result` keeps `Ok` values and silently drops
errors, i.e. `filterMap`. -/
def sequenceLengthsCode (s : String) : List Nat :=
  (stepBy8 ((splitEmpty s.data).drop 2)).filterMap digitOfPart

/-- Modelled from the spec wording of the packed-sequence algorithm (for
comparison with the source decoder): skip the first 2 characters of the
text, then take every 8th character thereafter, keeping the digits. -/
def sequenceLengthsSpec (s : String) : List Nat :=
  (stepBy8 (s.data.drop 2)).filterMap digitOfChar

/-- Checked narrowing `u8::try_from` on a `u64` value: fails above 255
(the `TryFromIntError` message text is immaterial here). -/
def u8TryFrom (n : Nat) : Except String Nat :=
  if n < 256 then .ok n else .error "out of range integral type conversion attempted"

/-- Header phase of the RawEvent decoder in `data.rs`: the seven
`field_get!` invocations, in source order, yielding
(id, sequence, sequenceCount, strikeCount, overrideDeck, npc guid). -/
def eventHeader (event : List (String × Field)) :
    Except String (String × String × Nat × Nat × Nat × String) :=
  match fieldGetStr none event "id" with
  | .error e => .error e
  | .ok id =>
  match fieldGetStr none event "sequence" with
  | .error e => .error e
  | .ok sequence =>
  match fieldGetUint (some id) event "sequenceCount" with
  | .error e => .error e
  | .ok seqCount =>
  match fieldGetUint (some id) event "strikeCount" with
  | .error e => .error e
  | .ok strikeCount =>
  match fieldGetUint (some id) event "overrideDeck" with
  | .error e => .error e
  | .ok overrideDeck =>
  match fieldGetStruct (some id) event "npc" with
  | .error e => .error e
  | .ok npcData =>
  match fieldGetStr (some id) npcData "guid" with
  | .error e => .error e
  | .ok npcGuid => .ok (id, sequence, seqCount, strikeCount, overrideDeck, npcGuid)

/-- Decoder body of `impl_tryfrom_field!(Struct for RawEvent)` in `data.rs`:
field extraction, packed-sequence decoding, the length-vs-`sequenceCount`
validation, the two checked `u8` narrowings, and the `overrideDeck`-guarded
deck decode, in exactly the source's evaluation order. -/
def tryFromStructRawEvent (event : List (String × Field)) : Except String RawEvent :=
  match eventHeader event with
  | .error e => .error e
  | .ok (id, sequence, seqCount, strikeCount, overrideDeck, npcGuid) =>
    let sequenceLengths := sequenceLengthsCode sequence
    if sequenceLengths.length ≠ seqCount then
      .error (id ++ ": Failed to parse `sequence` field.")
    else
      match u8TryFrom seqCount with
      | .error e => .error e
      | .ok sc =>
      match u8TryFrom strikeCount with
      | .error e => .error e
      | .ok stc =>
      let deckRes : Except String (Option Deck) :=
        if overrideDeck = 1 then
          match fieldGetStruct (some id) event "deck" with
          | .error e => .error e
          | .ok deckMap =>
            match tryFromStructDeck deckMap with
            | .error e => .error e
            | .ok d => .ok (some d)
        else .ok Option.none
      match deckRes with
      | .error e => .error e
      | .ok deck => .ok ⟨id, npcGuid, sc, stc, sequenceLengths, deck⟩

/-- Modelled from the spec: wrapper of `impl_tryfrom_field!(Struct for
RawEvent)` (macro not under `src/`), failing iff the value is not `Struct`
as in the expanded impl in `main.rs`. -/
def tryFromFieldRawEvent : Field → Except String RawEvent
  | .Struct m => tryFromStructRawEvent m
  | _ => .error "Field is not a Struct"

/-- NPC struct from `data.rs`. The fixed-size array `[Deck; 6]` is a list
whose length is 6 for every decoder output. -/
structure NPC where
  id : String
  hand_size : Nat
  prefers_doubles : Bool
  mad_threshold : Nat
  decks : List Deck
deriving DecidableEq, Repr

/-- Decoder body of `impl_tryfrom_field!(Struct for NPC)` in `data.rs`:
ten `field_get!` calls, then the struct literal with the truncating
`as u8` casts (modelled as `% 256`), the nonzero test for
`prefersDoubles`, and the six Deck decodes in order. -/
def tryFromStructNPC (m : List (String × Field)) : Except String NPC :=
  match fieldGetStr none m "id" with
  | .error e => .error e
  | .ok id =>
  match fieldGetUint none m "handSize" with
  | .error e => .error e
  | .ok handSize =>
  match fieldGetUint none m "prefersDoubles" with
  | .error e => .error e
  | .ok doubles =>
  match fieldGetUint none m "mad" with
  | .error e => .error e
  | .ok mad =>
  match fieldGetStruct none m "deck0" with
  | .error e => .error e
  | .ok d0m =>
  match fieldGetStruct none m "deck1" with
  | .error e => .error e
  | .ok d1m =>
  match fieldGetStruct none m "deck2" with
  | .error e => .error e
  | .ok d2m =>
  match fieldGetStruct none m "deck3" with
  | .error e => .error e
  | .ok d3m =>
  match fieldGetStruct none m "deck4" with
  | .error e => .error e
  | .ok d4m =>
  match fieldGetStruct none m "deck5" with
  | .error e => .error e
  | .ok d5m =>
  match tryFromStructDeck d0m with
  | .error e => .error e
  | .ok dk0 =>
  match tryFromStructDeck d1m with
  | .error e => .error e
  | .ok dk1 =>
  match tryFromStructDeck d2m with
  | .error e => .error e
  | .ok dk2 =>
  match tryFromStructDeck d3m with
  | .error e => .error e
  | .ok dk3 =>
  match tryFromStructDeck d4m with
  | .error e => .error e
  | .ok dk4 =>
  match tryFromStructDeck d5m with
  | .error e => .error e
  | .ok dk5 =>
    .ok ⟨id, handSize % 256, doubles != 0, mad % 256, [dk0, dk1, dk2, dk3, dk4, dk5]⟩

/-- Structural pre-check `NPC::is_npc` from `data.rs`: the struct is treated
as an NPC record iff it contains the `deck0` key. -/
def isNpcStruct (m : List (String × Field)) : Bool :=
  (List.lookup "deck0" m).isSome

/-- Loader `NPC::load_asset` from `data.rs`, modulo file I/O and the yaml
parse (the function receives the already-parsed root value): require a
struct root, get `MonoBehaviour`, then decode as NPC only if `is_npc`. -/
def loadAsset : Field → Except String (Option NPC)
  | .Struct dataMap =>
    match fieldGetStruct none dataMap "MonoBehaviour" with
    | .error e => .error e
    | .ok mono =>
      if isNpcStruct mono then
        match tryFromStructNPC mono with
        | .error e => .error e
        | .ok npc => .ok (some npc)
      else .ok Option.none
  | _ => .error "Root isn't a map"

/-- Look up by left key in the modelled `BiBTreeMap` (`get_by_left`). -/
def getByLeft (m : List (String × String)) (l : String) : Option String :=
  (m.find? (fun p => p.1 == l)).map (fun p => p.2)

/-- Look up by right value in the modelled `BiBTreeMap` (`get_by_right`). -/
def getByRight (m : List (String × String)) (r : String) : Option String :=
  (m.find? (fun p => p.2 == r)).map (fun p => p.1)

/-- Overwriting insert of the `bimap` crate's `BiBTreeMap::insert`: any
existing pair sharing the left key or sharing the right value is removed,
then the new pair is added. -/
def bimapInsert (m : List (String × String)) (l r : String) : List (String × String) :=
  (m.filter (fun p => !(p.1 == l) && !(p.2 == r))) ++ [(l, r)]

/-- Overwriting insert of `BTreeMap::insert` on the association-list model:
replace the value of an existing key, else append. -/
def assocInsert (m : List (String × α)) (k : String) (v : α) : List (String × α) :=
  if (List.lookup k m).isSome then
    m.map (fun p => if p.1 == k then (k, v) else p)
  else m ++ [(k, v)]

/-- The three NPC-side maps owned by `App` in `interface.rs`. -/
structure NpcMaps where
  npc_guids : List (String × String)
  npc_events : List (String × List String)
  npc_map : List (String × NPC)
deriving Repr

/-- One iteration of the `for meta_file in meta_files` loop of
`App::build_npc_maps`: the pair carries the parsed sidecar (meta) root and
the parsed asset root. Read the sidecar `guid`, load the asset; when it is
an NPC, insert into the guid bijection, the reverse event index and the NPC
map; when it is not an NPC, leave the state unchanged. -/
def buildNpcMapsStep (acc : NpcMaps) (item : Field × Field) : Except String NpcMaps :=
  match item.1 with
  | .Struct metaMap =>
    match fieldGetStr none metaMap "guid" with
    | .error e => .error e
    | .ok guid =>
      match loadAsset item.2 with
      | .error e => .error e
      | .ok (some npc) =>
        .ok ⟨bimapInsert acc.npc_guids guid npc.id,
             assocInsert acc.npc_events npc.id [],
             assocInsert acc.npc_map guid npc⟩
      | .ok none => .ok acc
  | _ => .error "Root isn't a map"

/-- The `for meta_file in meta_files` loop of `App::build_npc_maps`,
threading the accumulated maps and aborting at the first error. -/
def buildNpcMapsFrom (acc : NpcMaps) : List (Field × Field) → Except String NpcMaps
  | [] => .ok acc
  | item :: rest =>
    match buildNpcMapsStep acc item with
    | .error e => .error e
    | .ok acc' => buildNpcMapsFrom acc' rest

/-- Phase 1 of the resolver, `App::build_npc_maps` from `interface.rs`,
over the list of already-parsed (sidecar, asset) root pairs, starting from
the empty maps `App::new` begins with. -/
def buildNpcMaps (items : List (Field × Field)) : Except String NpcMaps :=
  buildNpcMapsFrom ⟨[], [], []⟩ items

/-- Event struct from `interface.rs`: a RawEvent together with the NPC id
resolved from its guid. -/
structure Event where
  npc_id : String
  event : RawEvent
deriving DecidableEq, Repr

/-- Ordered insertion into a modelled `BTreeSet<String>` (sorted, no
duplicates), as used for the per-NPC event-id sets. -/
def btreeInsertStr (x : String) : List String → List String
  | [] => [x]
  | y :: ys =>
    if x < y then x :: y :: ys
    else if x = y then y :: ys
    else y :: btreeInsertStr x ys

/-- Update the value stored for a key in the association-list model of
`BTreeMap` (the `get_mut` + mutate pattern). -/
def assocUpdate (m : List (String × α)) (k : String) (v : α) : List (String × α) :=
  m.map (fun p => if p.1 == k then (k, v) else p)

/-- Body of the closure in `App::parse_event_data`: decode the raw event,
resolve its guid in the phase-1 bijection, record the event id in the NPC's
reverse index, and produce the keyed Event; an unresolved guid is the fatal
error naming both the guid and the event id. -/
def linkEvent (guids : List (String × String)) (st : List (String × List String))
    (f : Field) : Except String ((String × Event) × List (String × List String)) :=
  match tryFromFieldRawEvent f with
  | .error e => .error e
  | .ok raw =>
    match getByLeft guids raw.npc_guid with
    | some npcId =>
      match List.lookup npcId st with
      | none => .error ("NPC " ++ npcId ++ " somehow wasn't added to the npc_events map")
      | some s =>
        .ok ((raw.id, ⟨npcId, raw⟩), assocUpdate st npcId (btreeInsertStr raw.id s))
    | none => .error ("Unknown NPC Guid `" ++ raw.npc_guid ++ "` in event `" ++ raw.id ++ "`")

/-- Phase 2 of the resolver, the `events.iter().map(...).collect::<Result>`
of `App::parse_event_data`: events processed in order, the reverse index
threaded through, and the first failure aborting the whole collection so
that no event map is produced at all. -/
def parseEventsAux (guids : List (String × String)) (st : List (String × List String)) :
    List Field → Except String (List (String × Event) × List (String × List String))
  | [] => .ok ([], st)
  | f :: rest =>
    match linkEvent guids st f with
    | .error e => .error e
    | .ok (kv, st') =>
      match parseEventsAux guids st' rest with
      | .error e => .error e
      | .ok (tail, st'') => .ok (kv :: tail, st'')

/-- Boolean success test for `Except` results. -/
def isOkE : Except String α → Bool
  | .ok _ => true
  | .error _ => false

/-- Appending one element that parses to `none` never changes the parsed
output of the stride-8 sampling: the element is either not sampled, or
sampled and then discarded by `filterMap`. -/
theorem filterMap_stepBy8Aux_append {α β : Type} (p : α → Option β) (e : α)
    (hpe : p e = none) :
    ∀ (l : List α) (k : Nat),
      List.filterMap p (stepBy8Aux k (l ++ [e])) = List.filterMap p (stepBy8Aux k l)
  | [], 0 => by simp [stepBy8Aux, hpe]
  | [], _ + 1 => by simp [stepBy8Aux]
  | x :: xs, 0 => by
    have ih := filterMap_stepBy8Aux_append p e hpe xs 7
    simp only [List.cons_append, stepBy8Aux, List.filterMap_cons, List.append_eq, ih]
  | _ :: xs, k + 1 => by
    simp only [List.cons_append, stepBy8Aux]
    exact filterMap_stepBy8Aux_append p e hpe xs k

/-- The stride-8 sampling commutes with `map`. -/
theorem stepBy8Aux_map {α β : Type} (f : α → β) :
    ∀ (l : List α) (k : Nat), stepBy8Aux k (l.map f) = (stepBy8Aux k l).map f
  | [], 0 => rfl
  | [], _ + 1 => rfl
  | x :: xs, 0 => by
    simp only [List.map_cons, stepBy8Aux]
    rw [stepBy8Aux_map f xs 7]
  | _ :: xs, k + 1 => by
    simp only [List.map_cons, stepBy8Aux]
    exact stepBy8Aux_map f xs k

/-- C1 (amended). What `split("").skip(2).step_by(8)` does to the character
sequence: because `split("")` yields a leading empty fragment, `skip(2)`
discards that fragment plus only ONE character, so the decoder samples the
characters at 0-based indices 1, 9, 17, ... (skip the first 1 character,
then stride 8), parses each sampled character as a base-10 digit and drops
non-digits silently; the trailing empty fragment never contributes. -/
theorem sequenceLengthsCode_samples_skip_one (s : String) :
    sequenceLengthsCode s = (stepBy8 (s.data.drop 1)).filterMap digitOfChar := by
  cases hs : s.data with
  | nil => simp [sequenceLengthsCode, splitEmpty, hs, stepBy8, stepBy8Aux]
  | cons c cs =>
    unfold sequenceLengthsCode splitEmpty stepBy8
    rw [hs]
    simp only [List.map_cons, List.cons_append, List.drop_succ_cons, List.drop_zero]
    rw [filterMap_stepBy8Aux_append digitOfPart [] rfl]
    rw [stepBy8Aux_map, List.filterMap_map]
    rfl

/-- C1 (counterexample). On the sequence text "0300000002000000" (two
packed 8-character groups) the decoder produces [3, 2], whereas sampling
the characters with an honest skip of the first 2 characters and stride 8
as the claim states would produce [0, 0]. -/
theorem sequenceLengthsCode_spec_counterexample :
    sequenceLengthsCode "0300000002000000" = [3, 2] ∧
    sequenceLengthsSpec "0300000002000000" = [0, 0] ∧
    sequenceLengthsCode "0300000002000000" ≠ sequenceLengthsSpec "0300000002000000" := by
  refine ⟨by decide, by decide, by decide⟩

/-- C7. The Effect decoder is total over unsigned codes: codes 1 through 9
map to the nine named variants, code 0 and every code at least 10 map to
`Effect.none`, and the mapping is injective on the ten codes below 10 (in
particular bijective between 1..9 and the nine named variants). -/
theorem effect_decode_total_bijective :
    (effectOfUint 0 = Effect.none ∧
     effectOfUint 1 = Effect.chain ∧
     effectOfUint 2 = Effect.inherit ∧
     effectOfUint 3 = Effect.duplicate ∧
     effectOfUint 4 = Effect.insert ∧
     effectOfUint 5 = Effect.collapse ∧
     effectOfUint 6 = Effect.redraw ∧
     effectOfUint 7 = Effect.viewHand ∧
     effectOfUint 8 = Effect.choose ∧
     effectOfUint 9 = Effect.listen) ∧
    (∀ n, 10 ≤ n → effectOfUint n = Effect.none) ∧
    (∀ i, i < 10 → ∀ j, j < 10 → effectOfUint i = effectOfUint j → i = j) := by
  refine ⟨by decide, ?_, by decide⟩
  intro n hn
  obtain ⟨k, rfl⟩ : ∃ k, n = k + 10 := ⟨n - 10, by omega⟩
  rfl

/-- Witness for C7: code 12 is an unknown code and decodes to `Effect.none`. -/
theorem effect_decode_total_bijective_witness :
    10 ≤ 12 ∧ effectOfUint 12 = Effect.none :=
  ⟨by decide, effect_decode_total_bijective.2.1 12 (by decide)⟩

/-- For the six defined bit positions, masking the input modulo 64 does not
change the bit test. -/
theorem and_mod64_eq (n b k : Nat) (hb : b = 2 ^ k) (hk : k < 6) :
    n % 64 &&& b = n &&& b := by
  subst hb
  rw [show (64 : Nat) = 2 ^ 6 by norm_num, Nat.and_two_pow, Nat.and_two_pow,
    Nat.testBit_mod_two_pow]
  simp [hk]

/-- The Connector decoder only reads the low six bits. -/
theorem connectorOfUint_mod (n : Nat) : connectorOfUint (n % 64) = connectorOfUint n := by
  simp only [connectorOfUint,
    and_mod64_eq n 0x1 0 (by norm_num) (by norm_num),
    and_mod64_eq n 0x2 1 (by norm_num) (by norm_num),
    and_mod64_eq n 0x4 2 (by norm_num) (by norm_num),
    and_mod64_eq n 0x8 3 (by norm_num) (by norm_num),
    and_mod64_eq n 0x10 4 (by norm_num) (by norm_num),
    and_mod64_eq n 0x20 5 (by norm_num) (by norm_num)]

/-- Exhaustive check of the Connector round-trip on the 64 residues. -/
theorem connector_roundtrip_small :
    ∀ m, m < 64 → connectorMask (connectorOfUint m) = m ∧
      (∀ t : ConnectType, t ∈ connectorOfUint m ↔ m &&& connectBit t ≠ 0) := by
  decide

/-- C3. Decoding an unsigned 64-bit integer as a Connector yields a set
whose re-derived bitmask (OR of the present tags' bit values) is the low
six bits of the input, and each tag is a member exactly when its bit is
set; bits outside 0x3F are ignored. -/
theorem connector_roundtrip (n : Nat) (h : n < 2 ^ 64) :
    connectorMask (connectorOfUint n) = n &&& 0x3F ∧
    (∀ t : ConnectType, t ∈ connectorOfUint n ↔ n &&& connectBit t ≠ 0) := by
  have hmod := connectorOfUint_mod n
  have hsmall := connector_roundtrip_small (n % 64) (Nat.mod_lt _ (by norm_num))
  constructor
  · rw [← hmod, hsmall.1, show (0x3F : Nat) = 2 ^ 6 - 1 by norm_num,
      Nat.and_pow_two_sub_one_eq_mod]
  · intro t
    rw [← hmod, hsmall.2 t]
    cases t with
    | circle => rw [show connectBit .circle = 0x1 from rfl,
        and_mod64_eq n 0x1 0 (by norm_num) (by norm_num)]
    | triangle => rw [show connectBit .triangle = 0x2 from rfl,
        and_mod64_eq n 0x2 1 (by norm_num) (by norm_num)]
    | square => rw [show connectBit .square = 0x4 from rfl,
        and_mod64_eq n 0x4 2 (by norm_num) (by norm_num)]
    | diamond => rw [show connectBit .diamond = 0x8 from rfl,
        and_mod64_eq n 0x8 3 (by norm_num) (by norm_num)]
    | spiral => rw [show connectBit .spiral = 0x10 from rfl,
        and_mod64_eq n 0x10 4 (by norm_num) (by norm_num)]
    | dog => rw [show connectBit .dog = 0x20 from rfl,
        and_mod64_eq n 0x20 5 (by norm_num) (by norm_num)]

/-- Witness for C3: decoding 0x45 ignores the 0x40 bit and round-trips to
0x45 AND 0x3F = 5. -/
theorem connector_roundtrip_witness :
    (0x45 : Nat) < 2 ^ 64 ∧ connectorMask (connectorOfUint 0x45) = 0x45 &&& 0x3F :=
  ⟨by norm_num, (connector_roundtrip 0x45 (by norm_num)).1⟩

/-- A Str accessor succeeds exactly when the key holds a Str value. -/
theorem fieldGetStr_ok_iff (ctx : Option String) (m : List (String × Field))
    (key s : String) :
    fieldGetStr ctx m key = .ok s ↔ List.lookup key m = some (.Str s) := by
  cases hl : List.lookup key m with
  | none => unfold fieldGetStr; rw [hl]; simp
  | some f => cases f <;> (unfold fieldGetStr; rw [hl]; simp)

/-- A Uint accessor succeeds exactly when the key holds a Uint value. -/
theorem fieldGetUint_ok_iff (ctx : Option String) (m : List (String × Field))
    (key : String) (n : Nat) :
    fieldGetUint ctx m key = .ok n ↔ List.lookup key m = some (.Uint n) := by
  cases hl : List.lookup key m with
  | none => unfold fieldGetUint; rw [hl]; simp
  | some f => cases f <;> (unfold fieldGetUint; rw [hl]; simp)

/-- A Struct accessor succeeds exactly when the key holds a Struct value. -/
theorem fieldGetStruct_ok_iff (ctx : Option String) (m : List (String × Field))
    (key : String) (s : List (String × Field)) :
    fieldGetStruct ctx m key = .ok s ↔ List.lookup key m = some (.Struct s) := by
  cases hl : List.lookup key m with
  | none => unfold fieldGetStruct; rw [hl]; simp
  | some f => cases f <;> (unfold fieldGetStruct; rw [hl]; simp)

/-- A List accessor succeeds exactly when the key holds a List value. -/
theorem fieldGetList_ok_iff (ctx : Option String) (m : List (String × Field))
    (key : String) (l : List Field) :
    fieldGetList ctx m key = .ok l ↔ List.lookup key m = some (.List l) := by
  cases hl : List.lookup key m with
  | none => unfold fieldGetList; rw [hl]; simp
  | some f => cases f <;> (unfold fieldGetList; rw [hl]; simp)

/-- Inversion principle for a successful event header: each of the seven
`field_get!` calls found its key with the expected variant. -/
theorem eventHeader_ok_spec (m : List (String × Field))
    (id seq : String) (sc stc od : Nat) (guid : String)
    (h : eventHeader m = .ok (id, seq, sc, stc, od, guid)) :
    List.lookup "id" m = some (.Str id) ∧
    List.lookup "sequence" m = some (.Str seq) ∧
    List.lookup "sequenceCount" m = some (.Uint sc) ∧
    List.lookup "strikeCount" m = some (.Uint stc) ∧
    List.lookup "overrideDeck" m = some (.Uint od) ∧
    ∃ npc, List.lookup "npc" m = some (.Struct npc) ∧
      List.lookup "guid" npc = some (.Str guid) := by
  unfold eventHeader at h
  repeat' split at h
  all_goals first
    | exact absurd h (fun hc => Except.noConfusion hc)
    | skip
  rw [Except.ok.injEq] at h
  simp only [Prod.mk.injEq] at h
  obtain ⟨rfl, rfl, rfl, rfl, rfl, rfl⟩ := h
  simp only [fieldGetStr_ok_iff, fieldGetUint_ok_iff, fieldGetStruct_ok_iff] at *
  exact ⟨by assumption, by assumption, by assumption, by assumption, by assumption,
    ⟨_, by assumption, by assumption⟩⟩

/-- Computation rule for the event header when all seven fields are present
and well-typed. -/
theorem eventHeader_eq_ok (m : List (String × Field))
    (id seq : String) (sc stc od : Nat) (guid : String) (npcm : List (String × Field))
    (hid : List.lookup "id" m = some (.Str id))
    (hseq : List.lookup "sequence" m = some (.Str seq))
    (hsc : List.lookup "sequenceCount" m = some (.Uint sc))
    (hstc : List.lookup "strikeCount" m = some (.Uint stc))
    (hod : List.lookup "overrideDeck" m = some (.Uint od))
    (hnpc : List.lookup "npc" m = some (.Struct npcm))
    (hguid : List.lookup "guid" npcm = some (.Str guid)) :
    eventHeader m = .ok (id, seq, sc, stc, od, guid) := by
  unfold eventHeader fieldGetStr fieldGetUint fieldGetStruct
  simp only [hid, hseq, hsc, hstc, hod, hnpc, hguid]

/-- Concrete event struct used as test data: sequence text "05" (the
decoder samples character index 1, the digit 5), sequenceCount 1, no deck
override. -/
def eventEx1 : List (String × Field) :=
  [("id", .Str "e1"), ("sequence", .Str "05"), ("sequenceCount", .Uint 1),
   ("strikeCount", .Uint 0), ("overrideDeck", .Uint 0),
   ("npc", .Struct [("guid", .Str "g1")])]

/-- C4 (amended). For an event struct whose required fields are present and
well-typed, decoding succeeds iff the digit count of the decoder's actual
sampling (skip the first 1 character, then stride 8) equals `sequenceCount`,
both counters fit in 8 bits, and, when `overrideDeck` is 1, a `deck` struct
field is present and decodes as a Deck; when the sampling count differs from
`sequenceCount` the decode fails with the error naming the event id. -/
theorem event_decode_ok_iff (m : List (String × Field))
    (id seq : String) (sc stc od : Nat) (guid : String) (npcm : List (String × Field))
    (hid : List.lookup "id" m = some (.Str id))
    (hseq : List.lookup "sequence" m = some (.Str seq))
    (hsc : List.lookup "sequenceCount" m = some (.Uint sc))
    (hstc : List.lookup "strikeCount" m = some (.Uint stc))
    (hod : List.lookup "overrideDeck" m = some (.Uint od))
    (hnpc : List.lookup "npc" m = some (.Struct npcm))
    (hguid : List.lookup "guid" npcm = some (.Str guid)) :
    (isOkE (tryFromStructRawEvent m) = true ↔
      ((sequenceLengthsCode seq).length = sc ∧ sc < 256 ∧ stc < 256 ∧
        (od = 1 → ∃ dm d, List.lookup "deck" m = some (.Struct dm) ∧
          tryFromStructDeck dm = .ok d))) ∧
    ((sequenceLengthsCode seq).length ≠ sc →
      tryFromStructRawEvent m = .error (id ++ ": Failed to parse `sequence` field.")) := by
  have hh := eventHeader_eq_ok m id seq sc stc od guid npcm hid hseq hsc hstc hod hnpc hguid
  constructor
  · unfold tryFromStructRawEvent
    rw [hh]
    by_cases hlen : (sequenceLengthsCode seq).length = sc
    · by_cases hsc256 : sc < 256
      · by_cases hstc256 : stc < 256
        · by_cases hod1 : od = 1
          · cases hdm : List.lookup "deck" m with
            | none =>
              simp [hlen, hsc256, hstc256, hod1, hdm, u8TryFrom, fieldGetStruct, isOkE]
            | some f =>
              cases f
              next dm =>
                cases hdd : tryFromStructDeck dm with
                | error e =>
                  simp [hlen, hsc256, hstc256, hod1, hdm, hdd, u8TryFrom, fieldGetStruct, isOkE]
                | ok d =>
                  simp [hlen, hsc256, hstc256, hod1, hdm, hdd, u8TryFrom, fieldGetStruct, isOkE]
              all_goals
                simp [hlen, hsc256, hstc256, hod1, hdm, u8TryFrom, fieldGetStruct, isOkE]
          · simp [hlen, hsc256, hstc256, hod1, u8TryFrom, isOkE]
        · simp [hlen, hsc256, hstc256, u8TryFrom, isOkE]
      · simp [hlen, hsc256, u8TryFrom, isOkE]
    · simp [hlen, isOkE]
  · intro hlen
    unfold tryFromStructRawEvent
    rw [hh]
    simp [hlen]

/-- C4 (counterexample). On the event struct with sequence text "05" and
sequenceCount 1, decoding succeeds although the claimed skip-2/stride-8
character sampling yields 0 digits, not 1: the success condition is not the
one the claim states. -/
theorem event_decode_iff_counterexample :
    isOkE (tryFromStructRawEvent eventEx1) = true ∧
    (sequenceLengthsSpec "05").length ≠ 1 := by
  constructor
  · rfl
  · decide

/-- Witness for C4: the hypotheses hold of the concrete event struct
`eventEx1` and the amended success condition is satisfied there. -/
theorem event_decode_ok_iff_witness :
    isOkE (tryFromStructRawEvent eventEx1) = true :=
  (event_decode_ok_iff eventEx1 "e1" "05" 1 0 0 "g1" [("guid", .Str "g1")]
    rfl rfl rfl rfl rfl rfl rfl).1.mpr
    ⟨by decide, by decide, by decide, fun h => absurd h (by decide)⟩

/-- The same event struct with any `deck` entry removed (used to state that
the deck field is irrelevant when `overrideDeck` is not 1). -/
def filterDeck (m : List (String × Field)) : List (String × Field) :=
  m.filter (fun p => !(p.1 == "deck"))

/-- Removing the `deck` entry leaves every other lookup unchanged. -/
theorem lookup_filterDeck (m : List (String × Field)) (k : String) (hk : k ≠ "deck") :
    List.lookup k (filterDeck m) = List.lookup k m := by
  induction m with
  | nil => rfl
  | cons p rest ih =>
    obtain ⟨a, b⟩ := p
    by_cases ha : a = "deck"
    · subst ha
      have hkf : (k == "deck") = false := by simp [hk]
      simp [filterDeck, List.filter_cons, List.lookup, hkf] at *
      exact ih
    · have haf : (a == "deck") = false := by simp [ha]
      simp only [filterDeck, List.filter_cons, haf, Bool.not_false, if_pos] at *
      simp only [List.lookup, ih]

/-- The event header never reads the `deck` key. -/
theorem eventHeader_filterDeck (m : List (String × Field)) :
    eventHeader (filterDeck m) = eventHeader m := by
  unfold eventHeader fieldGetStr fieldGetUint fieldGetStruct
  rw [lookup_filterDeck m "id" (by decide), lookup_filterDeck m "sequence" (by decide),
    lookup_filterDeck m "sequenceCount" (by decide),
    lookup_filterDeck m "strikeCount" (by decide),
    lookup_filterDeck m "overrideDeck" (by decide),
    lookup_filterDeck m "npc" (by decide)]

/-- C5. When `overrideDeck` is not 1 the event decoder behaves identically
whether or not a `deck` field is present and any successful decode carries
`deck = none`; when `overrideDeck` is 1, the decode cannot succeed unless a
`deck` struct field is present and decodes as a Deck. -/
theorem event_override_deck (m : List (String × Field)) :
    (List.lookup "overrideDeck" m ≠ some (.Uint 1) →
      tryFromStructRawEvent m = tryFromStructRawEvent (filterDeck m)) ∧
    (∀ v, List.lookup "overrideDeck" m = some (.Uint v) → v ≠ 1 →
      ∀ r, tryFromStructRawEvent m = .ok r → r.deck = Option.none) ∧
    (List.lookup "overrideDeck" m = some (.Uint 1) →
      (¬ ∃ dm d, List.lookup "deck" m = some (.Struct dm) ∧ tryFromStructDeck dm = .ok d) →
      isOkE (tryFromStructRawEvent m) = false) := by
  refine ⟨?_, ?_, ?_⟩
  · intro hod
    unfold tryFromStructRawEvent
    rw [eventHeader_filterDeck]
    cases hh : eventHeader m with
    | error e => rfl
    | ok t =>
      obtain ⟨id, seq, sc, stc, od, guid⟩ := t
      have hspec := eventHeader_ok_spec m id seq sc stc od guid hh
      have hod1 : od ≠ 1 := fun h => hod (h ▸ hspec.2.2.2.2.1)
      simp [hod1]
  · intro v hv hv1 r hr
    cases hh : eventHeader m with
    | error e =>
      unfold tryFromStructRawEvent at hr
      rw [hh] at hr
      exact absurd hr (fun hc => Except.noConfusion hc)
    | ok t =>
      obtain ⟨id, seq, sc, stc, od, guid⟩ := t
      have hspec := eventHeader_ok_spec m id seq sc stc od guid hh
      have hodv : od = v := by
        have hx := hspec.2.2.2.2.1
        rw [hv] at hx
        exact (Field.Uint.inj (Option.some.inj hx)).symm
      subst hodv
      unfold tryFromStructRawEvent at hr
      rw [hh] at hr
      simp only [hv1, if_false, ite_false] at hr
      repeat' split at hr
      all_goals first
        | exact absurd hr (fun hc => Except.noConfusion hc)
        | skip
      rw [Except.ok.injEq] at hr
      rw [← hr]
  · intro hod1 hnodeck
    cases hh : eventHeader m with
    | error e =>
      unfold tryFromStructRawEvent
      rw [hh]
      rfl
    | ok t =>
      obtain ⟨id, seq, sc, stc, od, guid⟩ := t
      have hspec := eventHeader_ok_spec m id seq sc stc od guid hh
      have hodv : od = 1 := by
        have hx := hspec.2.2.2.2.1
        rw [hod1] at hx
        exact (Field.Uint.inj (Option.some.inj hx)).symm
      subst hodv
      unfold tryFromStructRawEvent
      rw [hh]
      by_cases hlen : (sequenceLengthsCode seq).length ≠ sc
      · simp [hlen, isOkE]
      · by_cases hsc256 : sc < 256
        · by_cases hstc256 : stc < 256
          · cases hdm : List.lookup "deck" m with
            | none =>
              simp [hlen, hsc256, hstc256, hdm, u8TryFrom, fieldGetStruct, isOkE]
            | some f =>
              cases f
              next dm =>
                cases hdd : tryFromStructDeck dm with
                | error e =>
                  simp [hlen, hsc256, hstc256, hdm, hdd, u8TryFrom, fieldGetStruct, isOkE]
                | ok d =>
                  exact absurd ⟨dm, d, hdm, hdd⟩ hnodeck
              all_goals
                simp [hlen, hsc256, hstc256, hdm, u8TryFrom, fieldGetStruct, isOkE]
          · simp [hlen, hsc256, hstc256, u8TryFrom, isOkE]
        · simp [hlen, hsc256, u8TryFrom, isOkE]

/-- Concrete event struct with `overrideDeck = 0` and a `deck` field
nevertheless present. -/
def eventEx2 : List (String × Field) :=
  eventEx1 ++ [("deck", .Struct [("cards", .List []),
    ("anchor", .Struct [("input", .Uint 0), ("output", .Uint 0), ("effect", .Uint 0)])])]

/-- Witness for C5: on `eventEx2` (overrideDeck 0, deck field present) the
decode equals the decode of the deck-less struct, and its result carries
`deck = none`. -/
theorem event_override_deck_witness :
    tryFromStructRawEvent eventEx2 = tryFromStructRawEvent (filterDeck eventEx2) ∧
    RawEvent.deck ⟨"e1", "g1", 1, 0, [5], Option.none⟩ = Option.none :=
  ⟨(event_override_deck eventEx2).1 (fun h => by
      rw [show List.lookup "overrideDeck" eventEx2 = some (Field.Uint 0) from rfl] at h
      exact absurd (Field.Uint.inj (Option.some.inj h)) (by decide)),
   (event_override_deck eventEx2).2.1 0 rfl (by decide) ⟨"e1", "g1", 1, 0, [5], Option.none⟩ rfl⟩

/-- C8. In event decoding the two counters go through checked `u8`
narrowing: a `sequenceCount` or `strikeCount` above 255 makes the whole
decode fail (there is no silent truncation). -/
theorem event_decode_checked_narrowing (m : List (String × Field)) (a b : Nat) :
    (List.lookup "sequenceCount" m = some (.Uint a) → 255 < a →
      isOkE (tryFromStructRawEvent m) = false) ∧
    (List.lookup "strikeCount" m = some (.Uint b) → 255 < b →
      isOkE (tryFromStructRawEvent m) = false) := by
  constructor
  · intro hla ha
    cases hh : eventHeader m with
    | error e =>
      unfold tryFromStructRawEvent
      rw [hh]
      rfl
    | ok t =>
      obtain ⟨id, seq, sc, stc, od, guid⟩ := t
      have hspec := eventHeader_ok_spec m id seq sc stc od guid hh
      have hsa : sc = a := by
        have hx := hspec.2.2.1
        rw [hla] at hx
        exact (Field.Uint.inj (Option.some.inj hx)).symm
      subst hsa
      unfold tryFromStructRawEvent
      rw [hh]
      by_cases hlen : (sequenceLengthsCode seq).length ≠ sc
      · simp [hlen, isOkE]
      · simp [hlen, u8TryFrom, show ¬(sc < 256) from by omega, isOkE]
  · intro hlb hb
    cases hh : eventHeader m with
    | error e =>
      unfold tryFromStructRawEvent
      rw [hh]
      rfl
    | ok t =>
      obtain ⟨id, seq, sc, stc, od, guid⟩ := t
      have hspec := eventHeader_ok_spec m id seq sc stc od guid hh
      have hsb : stc = b := by
        have hx := hspec.2.2.2.1
        rw [hlb] at hx
        exact (Field.Uint.inj (Option.some.inj hx)).symm
      subst hsb
      unfold tryFromStructRawEvent
      rw [hh]
      by_cases hlen : (sequenceLengthsCode seq).length ≠ sc
      · simp [hlen, isOkE]
      · by_cases hsc256 : sc < 256
        · simp [hlen, hsc256, u8TryFrom, show ¬(stc < 256) from by omega, isOkE]
        · simp [hlen, hsc256, u8TryFrom, isOkE]

/-- Concrete event struct whose `strikeCount` is 999 while everything else
(including the sequence-length validation) is satisfied. -/
def eventEx4 : List (String × Field) :=
  [("id", .Str "e4"), ("sequence", .Str "05"), ("sequenceCount", .Uint 1),
   ("strikeCount", .Uint 999), ("overrideDeck", .Uint 0),
   ("npc", .Struct [("guid", .Str "g1")])]

/-- Witness for C8: a strikeCount of 999 makes the decode of `eventEx4`
fail even though its sequence validation passes. -/
theorem event_decode_checked_narrowing_witness :
    255 < 999 ∧ isOkE (tryFromStructRawEvent eventEx4) = false :=
  ⟨by decide, (event_decode_checked_narrowing eventEx4 1 999).2 rfl (by decide)⟩

/-- C9. NPC decoding narrows `handSize` and `mad` with the truncating
`as u8` cast: for any NPC struct whose other fields are valid the decode
succeeds with hand_size and mad_threshold equal to the stored values modulo
256, no matter how large they are — unlike the checked narrowing in Event
decoding. -/
theorem npc_decode_truncates (m : List (String × Field))
    (id : String) (hs pd md : Nat)
    (d0m d1m d2m d3m d4m d5m : List (String × Field))
    (dk0 dk1 dk2 dk3 dk4 dk5 : Deck)
    (hid : List.lookup "id" m = some (.Str id))
    (hhs : List.lookup "handSize" m = some (.Uint hs))
    (hpd : List.lookup "prefersDoubles" m = some (.Uint pd))
    (hmd : List.lookup "mad" m = some (.Uint md))
    (h0 : List.lookup "deck0" m = some (.Struct d0m))
    (h1 : List.lookup "deck1" m = some (.Struct d1m))
    (h2 : List.lookup "deck2" m = some (.Struct d2m))
    (h3 : List.lookup "deck3" m = some (.Struct d3m))
    (h4 : List.lookup "deck4" m = some (.Struct d4m))
    (h5 : List.lookup "deck5" m = some (.Struct d5m))
    (h0d : tryFromStructDeck d0m = .ok dk0)
    (h1d : tryFromStructDeck d1m = .ok dk1)
    (h2d : tryFromStructDeck d2m = .ok dk2)
    (h3d : tryFromStructDeck d3m = .ok dk3)
    (h4d : tryFromStructDeck d4m = .ok dk4)
    (h5d : tryFromStructDeck d5m = .ok dk5) :
    tryFromStructNPC m =
      .ok ⟨id, hs % 256, pd != 0, md % 256, [dk0, dk1, dk2, dk3, dk4, dk5]⟩ := by
  unfold tryFromStructNPC fieldGetStr fieldGetUint fieldGetStruct
  simp only [hid, hhs, hpd, hmd, h0, h1, h2, h3, h4, h5, h0d, h1d, h2d, h3d, h4d, h5d]

/-- Concrete deck struct: empty card list and an all-zero anchor card. -/
def deckMapEx : List (String × Field) :=
  [("cards", .List []),
   ("anchor", .Struct [("input", .Uint 0), ("output", .Uint 0), ("effect", .Uint 0)])]

/-- The Deck value `deckMapEx` decodes to. -/
def deckEx : Deck := ⟨⟨[], [], Effect.none⟩, []⟩

/-- Concrete NPC struct whose `handSize` (300) and `mad` (999) both exceed
255. -/
def npcStructEx : List (String × Field) :=
  [("id", .Str "npc1"), ("handSize", .Uint 300), ("prefersDoubles", .Uint 0),
   ("mad", .Uint 999),
   ("deck0", .Struct deckMapEx), ("deck1", .Struct deckMapEx),
   ("deck2", .Struct deckMapEx), ("deck3", .Struct deckMapEx),
   ("deck4", .Struct deckMapEx), ("deck5", .Struct deckMapEx)]

/-- Witness for C9: handSize 300 and mad 999 decode without error, to
300 mod 256 = 44 and 999 mod 256 = 231. -/
theorem npc_decode_truncates_witness :
    255 < 300 ∧ 255 < 999 ∧
    tryFromStructNPC npcStructEx =
      .ok ⟨"npc1", 44, false, 231, [deckEx, deckEx, deckEx, deckEx, deckEx, deckEx]⟩ :=
  ⟨by decide, by decide,
   npc_decode_truncates npcStructEx "npc1" 300 0 999
     deckMapEx deckMapEx deckMapEx deckMapEx deckMapEx deckMapEx
     deckEx deckEx deckEx deckEx deckEx deckEx
     rfl rfl rfl rfl rfl rfl rfl rfl rfl rfl rfl rfl rfl rfl rfl rfl⟩

/-- An event whose guid is unknown makes its own linking step fail with the
referential-integrity message, independently of the reverse-index state. -/
theorem linkEvent_unknown_guid (guids : List (String × String))
    (st : List (String × List String)) (f : Field) (r : RawEvent)
    (hdec : tryFromFieldRawEvent f = .ok r)
    (hunk : getByLeft guids r.npc_guid = Option.none) :
    linkEvent guids st f =
      .error ("Unknown NPC Guid `" ++ r.npc_guid ++ "` in event `" ++ r.id ++ "`") := by
  unfold linkEvent
  simp only [hdec, hunk]

/-- If any event of the list fails to link for every reverse-index state,
the whole collection fails. -/
theorem parseEventsAux_mem_fail (guids : List (String × String)) (f : Field)
    (hfail : ∀ st, isOkE (linkEvent guids st f) = false) :
    ∀ (events : List Field) (st : List (String × List String)), f ∈ events →
      isOkE (parseEventsAux guids st events) = false := by
  intro events
  induction events with
  | nil => intro st hmem; exact absurd hmem (List.not_mem_nil f)
  | cons e es ih =>
    intro st hmem
    rcases List.mem_cons.mp hmem with he | he
    · subst he
      have hf := hfail st
      cases hle : linkEvent guids st f with
      | error e2 => simp [parseEventsAux, hle, isOkE]
      | ok p => rw [hle] at hf; exact absurd hf (by simp [isOkE])
    · cases hle : linkEvent guids st e with
      | error e2 => simp [parseEventsAux, hle, isOkE]
      | ok p =>
        obtain ⟨kv, st'⟩ := p
        have htail := ih st' he
        cases hrest : parseEventsAux guids st' es with
        | error e2 => simp [parseEventsAux, hle, hrest, isOkE]
        | ok q => rw [hrest] at htail; exact absurd htail (by simp [isOkE])

/-- If an event fails to link with one fixed message for every state, and
every event before it links successfully, the collection fails with exactly
that message. -/
theorem parseEventsAux_fail_after_front (guids : List (String × String))
    (f : Field) (msg : String)
    (hfail : ∀ st, linkEvent guids st f = .error msg) :
    ∀ (pre : List Field) (st : List (String × List String)) out,
      parseEventsAux guids st pre = .ok out →
      ∀ post, parseEventsAux guids st (pre ++ f :: post) = .error msg := by
  intro pre
  induction pre with
  | nil =>
    intro st out hok post
    simp only [List.nil_append]
    unfold parseEventsAux
    rw [hfail st]
  | cons e es ih =>
    intro st out hok post
    simp only [List.cons_append]
    cases hle : linkEvent guids st e with
    | error e2 =>
      simp [parseEventsAux, hle] at hok
    | ok p =>
      obtain ⟨kv, st'⟩ := p
      cases hrest : parseEventsAux guids st' es with
      | error e2 =>
        simp [parseEventsAux, hle, hrest] at hok
      | ok q =>
        simp only [parseEventsAux, hle]
        rw [ih st' q hrest post]

/-- C6. If some event in the list decodes to a RawEvent whose guid is
recorded nowhere in the phase-1 bijection, collecting the full event set
fails — no event map value is produced at all — and when every earlier
event links successfully the error is precisely the one naming both the
unknown guid and the offending event id. -/
theorem unknown_guid_fails_load (guids : List (String × String))
    (st : List (String × List String)) (events : List Field)
    (f : Field) (r : RawEvent)
    (hmem : f ∈ events)
    (hdec : tryFromFieldRawEvent f = .ok r)
    (hunk : getByLeft guids r.npc_guid = Option.none) :
    isOkE (parseEventsAux guids st events) = false ∧
    (∀ pre post out, events = pre ++ f :: post →
      parseEventsAux guids st pre = .ok out →
      parseEventsAux guids st events =
        .error ("Unknown NPC Guid `" ++ r.npc_guid ++ "` in event `" ++ r.id ++ "`")) := by
  constructor
  · exact parseEventsAux_mem_fail guids f
      (fun st2 => by rw [linkEvent_unknown_guid guids st2 f r hdec hunk]; rfl)
      events st hmem
  · intro pre post out hsplit hok
    subst hsplit
    exact parseEventsAux_fail_after_front guids f _
      (fun st2 => linkEvent_unknown_guid guids st2 f r hdec hunk)
      pre st out hok post

/-- Phase-1 bijection with a single guid recorded. -/
def guidsEx : List (String × String) := [("g1", "npc1")]

/-- Reverse event index matching `guidsEx`. -/
def stEx : List (String × List String) := [("npc1", [])]

/-- Concrete event field whose guid "gX" is not in `guidsEx`. -/
def eventEx5 : Field :=
  .Struct [("id", .Str "e5"), ("sequence", .Str "05"), ("sequenceCount", .Uint 1),
    ("strikeCount", .Uint 0), ("overrideDeck", .Uint 0),
    ("npc", .Struct [("guid", .Str "gX")])]

/-- Witness for C6: loading the one-event list containing `eventEx5` fails
against the resolver state `guidsEx`. -/
theorem unknown_guid_fails_load_witness :
    isOkE (parseEventsAux guidsEx stEx [eventEx5]) = false :=
  (unknown_guid_fails_load guidsEx stEx [eventEx5] eventEx5
    ⟨"e5", "gX", 1, 0, [5], Option.none⟩
    (List.mem_singleton.mpr rfl) rfl rfl).1

/-- Concrete parsed NPC asset root with the given NPC id. -/
def npcAssetEx (id : String) : Field :=
  .Struct [("MonoBehaviour", .Struct [("id", .Str id), ("handSize", .Uint 5),
    ("prefersDoubles", .Uint 0), ("mad", .Uint 3),
    ("deck0", .Struct deckMapEx), ("deck1", .Struct deckMapEx),
    ("deck2", .Struct deckMapEx), ("deck3", .Struct deckMapEx),
    ("deck4", .Struct deckMapEx), ("deck5", .Struct deckMapEx)])]

/-- The NPC value `npcAssetEx id` decodes to. -/
def npcEx (id : String) : NPC :=
  ⟨id, 5, false, 3, [deckEx, deckEx, deckEx, deckEx, deckEx, deckEx]⟩

/-- First sidecar/asset pair: guid "g1", NPC id "npc1". -/
def itemA : Field × Field := (.Struct [("guid", .Str "g1")], npcAssetEx "npc1")

/-- Second sidecar/asset pair with the SAME guid "g1", NPC id "npc2". -/
def itemB : Field × Field := (.Struct [("guid", .Str "g1")], npcAssetEx "npc2")

/-- C2 (counterexample). Two sidecar/asset pairs carrying the same opaque
identifier "g1" do NOT make resolver construction fail: `build_npc_maps`
succeeds, because `BiBTreeMap::insert` silently overwrites. -/
theorem buildNpcMaps_duplicate_guid_counterexample :
    itemA.1 = Field.Struct [("guid", .Str "g1")] ∧
    itemB.1 = Field.Struct [("guid", .Str "g1")] ∧
    isOkE (buildNpcMaps [itemA, itemB]) = true :=
  ⟨rfl, rfl, rfl⟩

/-- C2 (amended). During resolver construction, a repeated opaque
identifier does not fail: the overwriting bimap insert removes every pair
sharing either side, so construction succeeds, the guid ends up bound to
the later NPC id, and (when the two NPC ids differ) the earlier NPC id is
no longer present in the bijection. -/
theorem buildNpcMaps_duplicate_overwrites
    (i1 i2 : Field × Field) (mm1 mm2 : List (String × Field)) (g : String)
    (npc1 npc2 : NPC)
    (hm1 : i1.1 = .Struct mm1) (hg1 : List.lookup "guid" mm1 = some (.Str g))
    (ha1 : loadAsset i1.2 = .ok (some npc1))
    (hm2 : i2.1 = .Struct mm2) (hg2 : List.lookup "guid" mm2 = some (.Str g))
    (ha2 : loadAsset i2.2 = .ok (some npc2)) :
    buildNpcMaps [i1, i2] = .ok ⟨[(g, npc2.id)],
        assocInsert [(npc1.id, [])] npc2.id [],
        [(g, npc2)]⟩ ∧
    getByLeft [(g, npc2.id)] g = some npc2.id ∧
    (npc1.id ≠ npc2.id → getByRight [(g, npc2.id)] npc1.id = Option.none) := by
  obtain ⟨f1, a1⟩ := i1
  obtain ⟨f2, a2⟩ := i2
  simp only at hm1 hm2 ha1 ha2
  subst hm1
  subst hm2
  have hfg1 : fieldGetStr none mm1 "guid" = .ok g := (fieldGetStr_ok_iff _ _ _ _).mpr hg1
  have hfg2 : fieldGetStr none mm2 "guid" = .ok g := (fieldGetStr_ok_iff _ _ _ _).mpr hg2
  refine ⟨?_, ?_, ?_⟩
  · simp [buildNpcMaps, buildNpcMapsFrom, buildNpcMapsStep, hfg1, hfg2, ha1, ha2,
      bimapInsert, assocInsert, List.filter]
  · simp [getByLeft]
  · intro hne
    have hb : (npc2.id == npc1.id) = false := beq_eq_false_iff_ne.mpr (Ne.symm hne)
    simp [getByRight, hb]

/-- Witness for the amended C2: on the concrete duplicate pair the build
succeeds, "g1" maps to "npc2", and "npc1" has disappeared from the
bijection. -/
theorem buildNpcMaps_duplicate_overwrites_witness :
    buildNpcMaps [itemA, itemB] = .ok ⟨[("g1", "npc2")],
        assocInsert [("npc1", [])] "npc2" [],
        [("g1", npcEx "npc2")]⟩ ∧
    getByRight [("g1", "npc2")] "npc1" = Option.none :=
  ⟨(buildNpcMaps_duplicate_overwrites itemA itemB
      [("guid", .Str "g1")] [("guid", .Str "g1")] "g1" (npcEx "npc1") (npcEx "npc2")
      rfl rfl rfl rfl rfl rfl).1,
   (buildNpcMaps_duplicate_overwrites itemA itemB
      [("guid", .Str "g1")] [("guid", .Str "g1")] "g1" (npcEx "npc1") (npcEx "npc2")
      rfl rfl rfl rfl rfl rfl).2.2 (by decide)⟩

/-- C10. RawEvent's hand-written `Ord` compares only the `id` field while
its derived equality is structural over all fields, so there are RawEvent
values that compare `Equal` yet are not equal: the order is not consistent
with equality. -/
theorem rawEvent_ord_inconsistent_with_eq :
    ∃ a b : RawEvent, cmpRawEvent a b = Ordering.eq ∧ a ≠ b := by
  refine ⟨⟨"e", "g1", 0, 0, [], Option.none⟩, ⟨"e", "g2", 0, 0, [], Option.none⟩, ?_, ?_⟩
  · decide
  · decide

end SEI
